import Mathlib

/-!
Verification of the soop3 HTTP file server (Rust) against its natural-language
specification.  The definitions below are a shallow embedding of the relevant
source functions; file and line references point into the repository sources.

Conventions of the embedding:
* Rust byte strings are `List Nat` (each element a byte value `< 256`).
* Filesystem paths are lists of component names (`AbsPath`); the list is the
  sequence of components of an absolute path, so `[]` is the filesystem root.
* The filesystem itself is abstract: a `Filesystem` supplies the two oracles
  the resolver consults (`exists` and `canonicalize`), and upload handling
  uses an explicit finite model (`FsModel`) threaded through the pipeline.
* Machine integers are `Nat`; no arithmetic here can overflow `u64` on the
  inputs considered, so no wrap-around modelling is required.
-/

namespace Soop3

/-! ## Path jail (src/utils/paths.rs) -/

/-- Error type of the path-jail resolver, from `PathTraversalError` in
src/utils/paths.rs (the `OutsideJail` payload of base and target paths is
dropped; only the variant matters to the HTTP layer).  The Rust variant
`WindowsPrefix` is rendered `windowsRoot` here. -/
inductive PathTraversalError where
  | invalidBasePath
  | invalidTargetPath
  | encodedSlash
  | outsideJail
  | invalidEncoding
  | windowsRoot
  | backslash
deriving DecidableEq, Repr

/-- `u8::to_ascii_lowercase` on a byte. -/
def lowerByte (b : Nat) : Nat :=
  if 65 ≤ b && b ≤ 90 then b + 32 else b

/-- `contains_encoded_slash` (src/utils/paths.rs:171-185): scan the raw bytes
for `%` followed by `2` and `f`/`F` (case-insensitively), one position at a
time, exactly as the `while index + 2 < bytes.len()` loop does. -/
def containsEncodedSlash : List Nat → Bool
  | b0 :: b1 :: b2 :: rest =>
      if b0 = 37 && lowerByte b1 = 50 && lowerByte b2 = 102 then true
      else containsEncodedSlash (b1 :: b2 :: rest)
  | _ => false

/-- Value of an ASCII hex digit, if the byte is one. -/
def hexVal (b : Nat) : Option Nat :=
  if 48 ≤ b && b ≤ 57 then some (b - 48)
  else if 97 ≤ b && b ≤ 102 then some (b - 87)
  else if 65 ≤ b && b ≤ 70 then some (b - 55)
  else none

/-- `percent_encoding::percent_decode_str` on bytes: `%hh` with two hex digits
becomes the byte, any other `%` is passed through literally. -/
def percentDecode : List Nat → List Nat
  | [] => []
  | 37 :: b :: c :: rest =>
      match hexVal b, hexVal c with
      | some hb, some hc => (16 * hb + hc) :: percentDecode rest
      | _, _ => 37 :: percentDecode (b :: c :: rest)
  | x :: rest => x :: percentDecode rest

/-- Is `b` a UTF-8 continuation byte? -/
def isCont (b : Nat) : Bool := 128 ≤ b && b ≤ 191

/-- UTF-8 well-formedness of a byte list (the `decode_utf8` success condition),
with fuel; every step consumes at least one byte, so fuel equal to the length
of the list suffices. -/
def utf8ValidFuel : Nat → List Nat → Bool
  | _, [] => true
  | 0, _ :: _ => false
  | fuel + 1, b :: rest =>
    if b ≤ 127 then utf8ValidFuel fuel rest
    else if 194 ≤ b && b ≤ 223 then
      match rest with
      | c1 :: rest1 => isCont c1 && utf8ValidFuel fuel rest1
      | [] => false
    else if b = 224 then
      match rest with
      | c1 :: c2 :: rest2 => (160 ≤ c1 && c1 ≤ 191) && isCont c2 && utf8ValidFuel fuel rest2
      | _ => false
    else if (225 ≤ b && b ≤ 236) || b = 238 || b = 239 then
      match rest with
      | c1 :: c2 :: rest2 => isCont c1 && isCont c2 && utf8ValidFuel fuel rest2
      | _ => false
    else if b = 237 then
      match rest with
      | c1 :: c2 :: rest2 => (128 ≤ c1 && c1 ≤ 159) && isCont c2 && utf8ValidFuel fuel rest2
      | _ => false
    else if b = 240 then
      match rest with
      | c1 :: c2 :: c3 :: rest3 =>
          (144 ≤ c1 && c1 ≤ 191) && isCont c2 && isCont c3 && utf8ValidFuel fuel rest3
      | _ => false
    else if 241 ≤ b && b ≤ 243 then
      match rest with
      | c1 :: c2 :: c3 :: rest3 =>
          isCont c1 && isCont c2 && isCont c3 && utf8ValidFuel fuel rest3
      | _ => false
    else if b = 244 then
      match rest with
      | c1 :: c2 :: c3 :: rest3 =>
          (128 ≤ c1 && c1 ≤ 143) && isCont c2 && isCont c3 && utf8ValidFuel fuel rest3
      | _ => false
    else false

/-- UTF-8 well-formedness of a byte list. -/
def utf8Valid (l : List Nat) : Bool := utf8ValidFuel l.length l

/-- A component of a relative path after normalization.  `normalize_path_component`
only ever emits normal names and `..` (it rejects root and drive components and
skips `.`), so those are the only constructors. -/
inductive PathComp where
  | normal (name : List Nat)
  | parent
deriving DecidableEq, Repr

/-- Classify the slash-separated segments of the decoded byte string the way
`Path::components()` does for a relative path: empty segments and `.` are
skipped, `..` is a parent component, everything else a normal name.  This is
the component walk of `normalize_path_component` (src/utils/paths.rs:148-166)
composed with the re-parse performed by `join_path_jailed_follow_parents`. -/
def classifySegs : List (List Nat) → List PathComp
  | [] => []
  | s :: rest =>
      if s = [] then classifySegs rest
      else if s = [46] then classifySegs rest
      else if s = [46, 46] then PathComp.parent :: classifySegs rest
      else PathComp.normal s :: classifySegs rest

/-- Parse the decoded byte string into path components.  A leading `/` is a
`RootDir` component in Rust, which `normalize_path_component` rejects with
`InvalidTargetPath`; on a Unix host no `Prefix` component can occur. -/
def parsePathComps (decoded : List Nat) : Except PathTraversalError (List PathComp) :=
  if decoded = [] then .ok []
  else if decoded.head? = some 47 then .error .invalidTargetPath
  else .ok (classifySegs (decoded.splitOn 47))

/-- `normalize_path_component` (src/utils/paths.rs:130-169): reject an encoded
slash before any decoding, percent-decode, reject invalid UTF-8, NUL and
backslash, then split into components. -/
def normalizePathComponent (component : List Nat) : Except PathTraversalError (List PathComp) :=
  if containsEncodedSlash component then .error .encodedSlash
  else
    let decoded := percentDecode component
    if ¬ utf8Valid decoded then .error .invalidEncoding
    else if decoded.contains 0 then .error .invalidEncoding
    else if decoded.contains 92 then .error .backslash
    else parsePathComps decoded

/-- An absolute filesystem path as its list of component names. -/
abbrev AbsPath := List (List Nat)

/-- The two filesystem oracles `join_path_jailed_follow_parents` consults:
`Path::exists` and `Path::canonicalize` (the latter returns `none` when the
Rust call errors). -/
structure Filesystem where
  present : AbsPath → Bool
  canon : AbsPath → Option AbsPath

/-- The component walk of `join_path_jailed_follow_parents`
(src/utils/paths.rs:82-126), including the final lexical containment check:
normal names are appended, existing prefixes are canonicalized and re-checked
against the canonical base, `..` pops one component and re-checks, and at the
end the result must still start with the canonical base. -/
def joinWalk (fs : Filesystem) (canonicalBase : AbsPath) :
    AbsPath → List PathComp → Except PathTraversalError AbsPath
  | current, [] =>
      if canonicalBase.isPrefixOf current then .ok current else .error .outsideJail
  | current, PathComp.normal name :: rest =>
      let candidate := current ++ [name]
      if fs.present candidate then
        match fs.canon candidate with
        | none => .error .invalidTargetPath
        | some canonicalCandidate =>
            if canonicalBase.isPrefixOf canonicalCandidate then
              joinWalk fs canonicalBase canonicalCandidate rest
            else .error .outsideJail
      else joinWalk fs canonicalBase candidate rest
  | current, PathComp.parent :: rest =>
      if current = [] then .error .outsideJail
      else
        let popped := current.dropLast
        if canonicalBase.isPrefixOf popped then joinWalk fs canonicalBase popped rest
        else .error .outsideJail

/-- `join_path_jailed_follow_parents` (src/utils/paths.rs:71-127): normalize
the raw component, canonicalize the base, then walk. -/
def joinPathJailedFollowParents (fs : Filesystem) (baseDir : AbsPath) (component : List Nat) :
    Except PathTraversalError AbsPath :=
  match normalizePathComponent component with
  | .error e => .error e
  | .ok comps =>
      match fs.canon baseDir with
      | none => .error .invalidBasePath
      | some canonicalBase => joinWalk fs canonicalBase canonicalBase comps

/-- `join_path_jailed` (src/utils/paths.rs:66-68) delegates to the
follow-parents resolver. -/
def joinPathJailed (fs : Filesystem) (baseDir : AbsPath) (component : List Nat) :
    Except PathTraversalError AbsPath :=
  joinPathJailedFollowParents fs baseDir component

/-- A trivially simple filesystem used to instantiate universally quantified
theorems in their witnesses: nothing exists, canonicalization is the
identity. -/
def emptyFs : Filesystem where
  present := fun _ => false
  canon := fun p => some p

/-! ## Lemmas about the walk -/

/-- Whenever the walk succeeds, the returned path starts with the canonical
base: every branch either errors out, re-establishes the containment check, or
reaches the final check. -/
theorem joinWalk_ok_isPrefixOf (fs : Filesystem) (cb : AbsPath) :
    ∀ (comps : List PathComp) (current p : AbsPath),
    joinWalk fs cb current comps = .ok p → cb.isPrefixOf p = true := by
  intro comps
  induction comps with
  | nil =>
      intro current p h
      unfold joinWalk at h
      split at h
      · simp only [Except.ok.injEq] at h
        subst h
        assumption
      · exact absurd h (by simp)
  | cons c rest ih =>
      intro current p h
      cases c with
      | normal name =>
          unfold joinWalk at h
          simp only at h
          split at h
          · split at h
            · exact absurd h (by simp)
            · split at h
              · exact ih _ _ h
              · exact absurd h (by simp)
          · exact ih _ _ h
      | parent =>
          unfold joinWalk at h
          split at h
          · exact absurd h (by simp)
          · dsimp only at h
            split at h
            · exact ih _ _ h
            · exact absurd h (by simp)

/-- Any byte list of the shape `pre ++ % 2 f/F ++ suf` makes the scan fire. -/
theorem containsEncodedSlash_of_shape :
    ∀ (pre : List Nat) (x y : Nat) (suf : List Nat),
    lowerByte x = 50 → lowerByte y = 102 →
    containsEncodedSlash (pre ++ 37 :: x :: y :: suf) = true := by
  intro pre
  induction pre with
  | nil =>
      intro x y suf hx hy
      simp [containsEncodedSlash, hx, hy]
  | cons a rest ih =>
      intro x y suf hx hy
      have htail := ih x y suf hx hy
      match rest with
      | [] =>
          simp only [List.nil_append] at htail ⊢
          rw [List.cons_append, List.nil_append]
          unfold containsEncodedSlash
          rw [htail]
          split <;> rfl
      | [b] =>
          simp only [List.cons_append, List.nil_append] at htail ⊢
          unfold containsEncodedSlash
          rw [htail]
          split <;> rfl
      | b :: c :: t =>
          simp only [List.cons_append] at htail ⊢
          unfold containsEncodedSlash
          rw [htail]
          split <;> rfl

/-- Claim C1: if the path-jail resolver returns successfully, the returned
absolute path starts with (is a descendant of) the canonical form of the base
directory; no successful resolution yields a path outside the jail. -/
theorem claim_C1_jailed_path_inside_base (fs : Filesystem) (baseDir : AbsPath)
    (raw : List Nat) (p : AbsPath)
    (h : joinPathJailed fs baseDir raw = .ok p) :
    ∃ canonicalBase, fs.canon baseDir = some canonicalBase ∧
      canonicalBase.isPrefixOf p = true := by
  unfold joinPathJailed joinPathJailedFollowParents at h
  cases hn : normalizePathComponent raw with
  | error e => rw [hn] at h; exact absurd h (by simp)
  | ok comps =>
      rw [hn] at h
      cases hc : fs.canon baseDir with
      | none => rw [hc] at h; exact absurd h (by simp)
      | some canonicalBase =>
          rw [hc] at h
          exact ⟨canonicalBase, rfl, joinWalk_ok_isPrefixOf fs canonicalBase comps _ _ h⟩

/-- Witness for C1: resolving the single-byte name `a` against base `[r]` on
the empty filesystem succeeds and lands inside the base. -/
theorem claim_C1_witness :
    joinPathJailed emptyFs [[114]] [97] = .ok [[114], [97]] ∧
    ∃ canonicalBase, emptyFs.canon [[114]] = some canonicalBase ∧
      canonicalBase.isPrefixOf [[114], [97]] = true :=
  ⟨rfl, claim_C1_jailed_path_inside_base emptyFs [[114]] [97] [[114], [97]] rfl⟩

/-- Claim C9: any request byte string containing `%2F` / `%2f` (the second
letter in either case), anywhere including at the very end, is rejected with
`EncodedSlash` — for every filesystem and base, hence before any
percent-decoding can influence the outcome. -/
theorem claim_C9_encoded_slash_rejected (fs : Filesystem) (baseDir : AbsPath)
    (pre suf : List Nat) (x y : Nat)
    (hx : lowerByte x = 50) (hy : lowerByte y = 102) :
    joinPathJailed fs baseDir (pre ++ 37 :: x :: y :: suf) =
      .error .encodedSlash := by
  unfold joinPathJailed joinPathJailedFollowParents normalizePathComponent
  rw [containsEncodedSlash_of_shape pre x y suf hx hy]
  simp

/-- Witness for C9: the three-byte string `%2F` (an occurrence ending exactly
at the end of the string) is rejected with `EncodedSlash`. -/
theorem claim_C9_witness :
    lowerByte 50 = 50 ∧ lowerByte 70 = 102 ∧
    joinPathJailed emptyFs [[114]] ([] ++ 37 :: 50 :: 70 :: []) =
      .error .encodedSlash :=
  ⟨by decide, by decide,
    claim_C9_encoded_slash_rejected emptyFs [[114]] [] [] 50 70 (by decide) (by decide)⟩

/-! ## Authentication middleware (src/server/middleware/auth.rs) -/

/-- HTTP methods the server can see (the four it honors plus two others to
stand for arbitrary non-matching methods). -/
inductive Method where
  | GET
  | HEAD
  | POST
  | OPTIONS
  | PUT
  | DELETE
deriving DecidableEq, Repr

/-- `SecurityPolicy` from src/config/types.rs. -/
inductive SecurityPolicy where
  | authenticateNone
  | authenticateAll
  | authenticateUpload
  | authenticateDownload
deriving DecidableEq, Repr

/-- `determine_auth_requirement` (src/server/middleware/auth.rs:75-90). -/
def determineAuthRequirement (policy : SecurityPolicy) (method : Method) : Bool :=
  if method = Method.OPTIONS then false
  else
    let isDownload : Bool := method = Method.GET || method = Method.HEAD
    match policy with
    | SecurityPolicy.authenticateNone => false
    | SecurityPolicy.authenticateAll => true
    | SecurityPolicy.authenticateUpload => !isDownload
    | SecurityPolicy.authenticateDownload => isDownload

/-- Claim C8: authentication is required exactly per policy — never for
OPTIONS; never under policy `none`; for every non-OPTIONS method under `all`;
exactly for non-GET/HEAD methods under `upload`; exactly for GET/HEAD under
`download`. -/
theorem claim_C8_auth_policy (policy : SecurityPolicy) (method : Method) :
    determineAuthRequirement policy method = true ↔
      (method ≠ Method.OPTIONS ∧
        match policy with
        | SecurityPolicy.authenticateNone => False
        | SecurityPolicy.authenticateAll => True
        | SecurityPolicy.authenticateUpload =>
            method ≠ Method.GET ∧ method ≠ Method.HEAD
        | SecurityPolicy.authenticateDownload =>
            method = Method.GET ∨ method = Method.HEAD) := by
  cases policy <;> cases method <;> decide

/-! ## File responder and directory handler (src/server/handlers/files.rs) -/

/-- The I/O error kinds relevant to status mapping. -/
inductive IoErrorKind where
  | notFound
  | permissionDenied
  | otherIo
deriving DecidableEq, Repr

/-- What `File::open` + `metadata` deliver on success. -/
structure FileData where
  size : Nat
  mime : String
deriving DecidableEq, Repr

/-- The body a handler promises to stream. -/
inductive BodySpec where
  | emptyBody
  | fullFile
  | fileRange (start len : Nat)
  | htmlListing
deriving DecidableEq, Repr

/-- Structured `Content-Range` header value. -/
inductive ContentRange where
  | satisfied (start endPos size : Nat)
  | unsatisfied (size : Nat)
deriving DecidableEq, Repr

/-- The response fields the claims talk about. -/
structure HttpResponse where
  status : Nat
  contentType : Option String := none
  contentLength : Option Nat := none
  acceptRanges : Bool := false
  contentRange : Option ContentRange := none
  location : Option String := none
  body : BodySpec := BodySpec.emptyBody
deriving DecidableEq, Repr

/-- `serve_full_file` (src/server/handlers/files.rs:210-228). -/
def serveFullFile (file : FileData) : HttpResponse where
  status := 200
  contentType := some file.mime
  contentLength := some file.size
  acceptRanges := true
  body := BodySpec.fullFile

/-- `serve_partial_file` (src/server/handlers/files.rs:171-207). -/
def servePartialFile (file : FileData) (start endPos : Nat) : HttpResponse where
  status := 206
  contentType := some file.mime
  contentLength := some (endPos - start + 1)
  acceptRanges := true
  contentRange := some (ContentRange.satisfied start endPos file.size)
  body := BodySpec.fileRange start (endPos - start + 1)

/-- The `416 Range Not Satisfiable` response built in the error arms of
`handle_file_request`. -/
def range416 (size : Nat) : HttpResponse where
  status := 416
  contentRange := some (ContentRange.unsatisfied size)

/-- Outcome of `parse_range_header` followed by `.validate(file_size)` from the
third-party `http_range_header` crate (external to this repository): the header
is malformed, validation fails, or validation yields a list of inclusive
`(start, end)` ranges. -/
inductive RangeOutcome where
  | malformed
  | invalid
  | valid (ranges : List (Nat × Nat))
deriving DecidableEq, Repr

/-- Abstract model of the external range parsing + validation: given the
header string and the file size, what the two calls yield. -/
abbrev RangeEval := String → Nat → RangeOutcome

/-- The range-handling core of `handle_file_request`
(src/server/handlers/files.rs:112-167), after open and metadata succeeded:
no header serves the full file; a malformed header or failed validation yields
416; an empty list of valid ranges serves the full file; otherwise only the
first range is honored. -/
def handleFileRequest (ranges : RangeEval) (file : FileData)
    (rangeHeader : Option String) : HttpResponse :=
  match rangeHeader with
  | none => serveFullFile file
  | some s =>
      match ranges s file.size with
      | RangeOutcome.malformed => range416 file.size
      | RangeOutcome.invalid => range416 file.size
      | RangeOutcome.valid [] => serveFullFile file
      | RangeOutcome.valid ((start, endPos) :: _) => servePartialFile file start endPos

/-- `handle_file_request` with its open/metadata error mapping
(src/server/handlers/files.rs:91-110): ANY failure of `File::open` or of
`metadata` — whatever the underlying I/O error kind, including permission
denied — maps to HTTP 500. -/
def fileRequestResult (ranges : RangeEval) (openResult : Except IoErrorKind FileData)
    (rangeHeader : Option String) : Except Nat HttpResponse :=
  match openResult with
  | Except.error _ => Except.error 500
  | Except.ok file => Except.ok (handleFileRequest ranges file rangeHeader)

/-- The existence gate of `handle_request_internal`
(src/server/handlers/files.rs:77-88): a resolved path that does not exist
yields 404 before any open is attempted. -/
def existenceGate (pathExists : Bool) (onExisting : Except Nat HttpResponse) :
    Except Nat HttpResponse :=
  if pathExists then onExisting else Except.error 404

/-- `str.ends_with('/')` as a character check (kernel-reducible). -/
def strEndsWithSlash (s : String) : Bool :=
  s.toList.getLast? = some (Char.ofNat 47)

/-- Split a character list on a separator, keeping empty pieces, with the
semantics of Rust `str::split` (an empty input yields one empty piece). -/
def splitChars (sep : Char) : List Char → List (List Char)
  | [] => [[]]
  | c :: rest =>
      let r := splitChars sep rest
      if c = sep then [] :: r
      else
        match r with
        | h :: t => (c :: h) :: t
        | [] => [[c]]

/-- `str::split('/')` on a string. -/
def splitOnSlash (s : String) : List String :=
  (splitChars (Char.ofNat 47) s.toList).map String.mk

/-- Metadata returned by a per-entry `stat` during directory enumeration. -/
structure EntryMeta where
  size : Nat
  modified : Nat
  isDir : Bool
deriving DecidableEq, Repr

/-- One listing row, from `DirectoryEntry` in src/utils/files.rs. -/
structure DirectoryEntry where
  name : String
  size : Nat
  modified : Nat
  isDir : Bool
deriving DecidableEq, Repr

/-- A directory as the enumeration sees it: each entry name paired with the
result of the per-entry metadata call.  `DirEntry::metadata` (std and tokio)
does not follow symlinks, so a dangling symlink's metadata call SUCCEEDS with
the symlink's own metadata; the call fails only for other reasons, e.g. the
entry vanishing between enumeration and the call. -/
abbrev DirListing := List (String × Except IoErrorKind EntryMeta)

/-- `collect_directory_entries` (src/utils/files.rs:48-67): the per-entry
`entry.metadata().await?` propagates the FIRST metadata failure as the result
of the whole enumeration. -/
def collectDirectoryEntries : DirListing → Except IoErrorKind (List DirectoryEntry)
  | [] => Except.ok []
  | (_, Except.error e) :: _ => Except.error e
  | (name, Except.ok m) :: rest =>
      match collectDirectoryEntries rest with
      | Except.error e => Except.error e
      | Except.ok entries =>
          Except.ok ({ name := name, size := m.size, modified := m.modified,
                       isDir := m.isDir } :: entries)

/-- The 200 HTML listing response produced on successful enumeration. -/
def listingResponse : HttpResponse where
  status := 200
  contentType := some "text/html; charset=utf-8"
  body := BodySpec.htmlListing

/-- `generate_directory_listing` (src/server/handlers/files.rs:262-309) with no
ignore file configured (`filter_with_ignore_patterns` then returns the entries
unchanged): an enumeration failure maps to HTTP 500, success produces the 200
HTML listing. -/
def generateDirectoryListing (listing : DirListing) : Except Nat HttpResponse :=
  match collectDirectoryEntries listing with
  | Except.error _ => Except.error 500
  | Except.ok _ => Except.ok listingResponse

/-- What `handle_directory_request` can observe about the directory: whether
`index.html` / `index.htm` exist as regular files (and their open results),
plus the enumeration outcome. -/
structure DirContext where
  hasIndexHtml : Bool
  indexHtml : FileData
  hasIndexHtm : Bool
  indexHtm : FileData
  listing : DirListing

/-- The 301 redirect adding a trailing slash. -/
def redirect301 (loc : String) : HttpResponse where
  status := 301
  location := some loc

/-- `handle_directory_request` (src/server/handlers/files.rs:231-259): redirect
when the trailing slash is missing; otherwise serve `index.html` then
`index.htm` if present — NOTE the source calls
`handle_file_request(index_path, HeaderMap::new())`, so the index file is
served with a fresh empty header map and the incoming `Range` header (third
argument here) is not forwarded; otherwise generate the listing. -/
def handleDirectoryRequest (ranges : RangeEval) (dir : DirContext)
    (requestPath : String) (rangeHeader : Option String) : Except Nat HttpResponse :=
  if ¬ strEndsWithSlash requestPath then Except.ok (redirect301 (requestPath ++ "/"))
  else if dir.hasIndexHtml then Except.ok (handleFileRequest ranges dir.indexHtml none)
  else if dir.hasIndexHtm then Except.ok (handleFileRequest ranges dir.indexHtm none)
  else
    let _ := rangeHeader
    generateDirectoryListing dir.listing

/-! ## Listing HTML hrefs (src/server/handlers/files.rs, src/utils/paths.rs) -/

/-- `escape_html` (src/utils/files.rs): entity-escape the five characters
ampersand, less-than, greater-than, double quote, apostrophe.  The source
chains five `String::replace` calls; since no replacement output contains a
character replaced by a later step, the per-character map is the same
function. -/
def escapeHtmlChar (c : Char) : String :=
  if c = Char.ofNat 38 then "&amp;"
  else if c = Char.ofNat 60 then "&lt;"
  else if c = Char.ofNat 62 then "&gt;"
  else if c = Char.ofNat 34 then "&quot;"
  else if c = Char.ofNat 39 then "&#x27;"
  else String.singleton c

/-- `escape_html` on a whole string. -/
def escapeHtml (input : String) : String :=
  String.join (input.toList.map escapeHtmlChar)

/-- Membership in `PATH_SEGMENT_ENCODE_SET` (src/utils/paths.rs:31-42):
controls, space, double quote, hash, percent, angle brackets, question mark,
backtick, braces, backslash. -/
def inPathSegmentEncodeSet (c : Char) : Bool :=
  c.toNat < 32 || c.toNat = 127 || c.toNat = 32 || c.toNat = 34 ||
  c.toNat = 35 || c.toNat = 37 || c.toNat = 60 || c.toNat = 62 ||
  c.toNat = 63 || c.toNat = 96 || c.toNat = 123 || c.toNat = 125 ||
  c.toNat = 92

/-- Upper-case hex digit for a value below 16. -/
def hexDigitUpper (n : Nat) : Char :=
  if n < 10 then Char.ofNat (48 + n) else Char.ofNat (55 + n)

/-- Percent-encode one character the way `utf8_percent_encode` does (non-ASCII
bytes are never in an `AsciiSet`, so non-ASCII characters pass through). -/
def encodeSegmentChar (c : Char) : String :=
  if inPathSegmentEncodeSet c then
    String.mk [Char.ofNat 37, hexDigitUpper (c.toNat / 16), hexDigitUpper (c.toNat % 16)]
  else String.singleton c

/-- Percent-encode one path segment. -/
def encodeSegment (seg : String) : String :=
  String.join (seg.toList.map encodeSegmentChar)

/-- The enumerated loop body of `encode_path_segments`: a `/` before every
segment except the first, empty segments skipped (but their separators kept). -/
def encodeSegsFrom : Bool → List String → String
  | _, [] => ""
  | first, seg :: rest =>
      (if first then "" else "/") ++
      (if seg = "" then "" else encodeSegment seg) ++
      encodeSegsFrom false rest

/-- `encode_path_segments` (src/utils/paths.rs:45-62). -/
def encodePathSegments (path : String) : String :=
  if path = "" then "" else encodeSegsFrom true (splitOnSlash path)

/-- The href attribute value emitted for one listing row by
`build_listing_html` (src/server/handlers/files.rs:369-384): the request path
joined with the raw entry name — an absolute path — with a trailing slash
added for directories, passed through `escape_html`; `encode_path_segments`
is not applied. -/
def listingHref (requestPath name : String) (isDir : Bool) : String :=
  let entryPath :=
    if strEndsWithSlash requestPath then requestPath ++ name
    else requestPath ++ "/" ++ name
  let finalEntryPath :=
    if isDir && !(strEndsWithSlash entryPath) then entryPath ++ "/" else entryPath
  escapeHtml finalEntryPath

/-! ## Claim theorems for serving and listing -/

/-- Claim C2 (code divergence): for a file named `file with spaces.txt` under
request path `/`, the href emitted by `build_listing_html` is the absolute,
merely HTML-escaped path `/file with spaces.txt`, not the relative
percent-encoded segment `file%20with%20spaces.txt` that the claim requires
(`encode_path_segments` of the entry name). -/
theorem claim_C2_href_absolute_not_encoded :
    listingHref "/" "file with spaces.txt" false = "/file with spaces.txt" ∧
    encodePathSegments "file with spaces.txt" = "file%20with%20spaces.txt" ∧
    listingHref "/" "file with spaces.txt" false ≠
      encodePathSegments "file with spaces.txt" :=
  ⟨by decide, by decide, by decide⟩

/-- Claim C5 (code divergence): a permission-denied failure of `File::open` on
an existing file is mapped to HTTP 500 — not 403 — by `handle_file_request`;
a path that does not exist is answered 404 by the existence gate before any
open. -/
theorem claim_C5_permission_denied_maps_to_500 :
    fileRequestResult (fun _ _ => RangeOutcome.malformed)
        (Except.error IoErrorKind.permissionDenied) none = Except.error 500 ∧
    (500 : Nat) ≠ 403 ∧
    existenceGate false
        (fileRequestResult (fun _ _ => RangeOutcome.malformed)
          (Except.error IoErrorKind.notFound) none) = Except.error 404 :=
  ⟨rfl, by decide, rfl⟩

/-- A directory whose enumeration sees one healthy entry and one entry whose
per-entry metadata call genuinely fails (the file vanished between enumeration
and the call). -/
def vanishedEntryDir : DirListing :=
  [("visible.txt", Except.ok { size := 7, modified := 0, isDir := false }),
   ("vanished", Except.error IoErrorKind.notFound)]

/-- A directory with a healthy file and a dangling (broken) symlink: since
`DirEntry::metadata` does not follow symlinks, the metadata call on the
dangling symlink succeeds, returning the symlink's own non-directory
metadata. -/
def danglingSymlinkDir : DirListing :=
  [("visible.txt", Except.ok { size := 7, modified := 0, isDir := false }),
   ("broken", Except.ok { size := 11, modified := 0, isDir := false })]

/-- Counterexample to claim C6 as stated: at a directory where the entry
`vanished` has a genuinely failing per-entry metadata call, the failure is NOT
limited to that entry — `collect_directory_entries` propagates it, the
remaining entries are discarded, and the handler answers 500 instead of
producing a listing response. -/
theorem claim_C6_counterexample_whole_listing_fails :
    collectDirectoryEntries vanishedEntryDir = Except.error IoErrorKind.notFound ∧
    generateDirectoryListing vanishedEntryDir = Except.error 500 :=
  ⟨rfl, rfl⟩

/-- Claim C6 (amended): a per-entry metadata failure is propagated by
`collect_directory_entries` — the whole enumeration fails and the handler
answers 500, rather than only that entry being omitted — while a directory all
of whose per-entry metadata calls succeed (as they do for a dangling symlink,
`DirEntry::metadata` not following symlinks) yields the 200 listing containing
every enumerated entry, the symlink included rather than omitted. -/
theorem claim_C6_stat_failure_fails_whole_listing (listing : DirListing) :
    ((∃ p ∈ listing, ∃ e, p.2 = Except.error e) →
      (∃ e, collectDirectoryEntries listing = Except.error e) ∧
        generateDirectoryListing listing = Except.error 500) ∧
    ((∀ p ∈ listing, ∃ m, p.2 = Except.ok m) →
      ∃ entries, collectDirectoryEntries listing = Except.ok entries ∧
        entries.map DirectoryEntry.name = listing.map Prod.fst ∧
        generateDirectoryListing listing = Except.ok listingResponse) := by
  induction listing with
  | nil =>
      constructor
      · intro ⟨p, hp, _⟩
        exact absurd hp (List.not_mem_nil p)
      · intro _
        exact ⟨[], rfl, rfl, rfl⟩
  | cons hd rest ih =>
      obtain ⟨name, res⟩ := hd
      constructor
      · intro ⟨p, hp, e, he⟩
        cases res with
        | error e0 =>
            refine ⟨⟨e0, rfl⟩, ?_⟩
            unfold generateDirectoryListing collectDirectoryEntries
            rfl
        | ok m =>
            have hrest : ∃ p ∈ rest, ∃ e, p.2 = Except.error e := by
              rcases List.mem_cons.mp hp with rfl | hmem
              · exact absurd he (by simp)
              · exact ⟨p, hmem, e, he⟩
            obtain ⟨⟨e1, hc⟩, _⟩ := ih.1 hrest
            refine ⟨⟨e1, ?_⟩, ?_⟩
            · unfold collectDirectoryEntries
              rw [hc]
            · unfold generateDirectoryListing collectDirectoryEntries
              rw [hc]
      · intro hall
        obtain ⟨m, hm⟩ := hall (name, res) (List.mem_cons_self _ _)
        simp only at hm
        subst hm
        obtain ⟨entries, hc, hnames, _⟩ :=
          ih.2 (fun p hp => hall p (List.mem_cons_of_mem _ hp))
        refine ⟨{ name := name, size := m.size, modified := m.modified,
                  isDir := m.isDir } :: entries, ?_, ?_, ?_⟩
        · unfold collectDirectoryEntries
          rw [hc]
        · simp [hnames]
        · unfold generateDirectoryListing collectDirectoryEntries
          rw [hc]

/-- Witness for C6 (amended), at the two concrete directories: the genuine
metadata failure turns the whole listing into a 500, and the directory with
the dangling symlink produces the 200 listing with both entries present. -/
theorem claim_C6_witness :
    generateDirectoryListing vanishedEntryDir = Except.error 500 ∧
    generateDirectoryListing danglingSymlinkDir = Except.ok listingResponse ∧
    (collectDirectoryEntries danglingSymlinkDir).map
        (fun entries => entries.map DirectoryEntry.name) =
      Except.ok ["visible.txt", "broken"] := by
  refine ⟨?_, ?_, ?_⟩
  · exact ((claim_C6_stat_failure_fails_whole_listing vanishedEntryDir).1
      ⟨("vanished", Except.error IoErrorKind.notFound), by simp [vanishedEntryDir],
        IoErrorKind.notFound, rfl⟩).2
  · obtain ⟨entries, _, _, h3⟩ :=
      (claim_C6_stat_failure_fails_whole_listing danglingSymlinkDir).2 (by
        intro p hp
        simp only [danglingSymlinkDir, List.mem_cons, List.not_mem_nil, or_false] at hp
        rcases hp with rfl | rfl
        · exact ⟨_, rfl⟩
        · exact ⟨_, rfl⟩)
    exact h3
  · rfl

/-- A range evaluation under which the header `bytes=0-2` validates against a
6-byte file to the single range `[0, 2]`. -/
def rangeEval02 : RangeEval := fun s size =>
  if s = "bytes=0-2" && size = 6 then RangeOutcome.valid [(0, 2)]
  else RangeOutcome.malformed

/-- A directory containing a 6-byte `index.html`. -/
def indexDirContext : DirContext where
  hasIndexHtml := true
  indexHtml := { size := 6, mime := "text/html" }
  hasIndexHtm := false
  indexHtm := { size := 6, mime := "text/html" }
  listing := []

/-- Claim C7 (code divergence): a GET of a directory containing `index.html`,
carrying a Range header, serves the index through `handle_file_request` with a
fresh empty header map (`HeaderMap::new()`), producing the 200 full-file
response — while a direct GET of the same file with the same Range header
produces 206 partial content. -/
theorem claim_C7_index_drops_range_header :
    handleDirectoryRequest rangeEval02 indexDirContext "/with_index/"
        (some "bytes=0-2") =
      Except.ok (serveFullFile { size := 6, mime := "text/html" }) ∧
    handleFileRequest rangeEval02 { size := 6, mime := "text/html" }
        (some "bytes=0-2") =
      servePartialFile { size := 6, mime := "text/html" } 0 2 ∧
    (serveFullFile { size := 6, mime := "text/html" }).status = 200 ∧
    (servePartialFile { size := 6, mime := "text/html" } 0 2).status = 206 :=
  ⟨rfl, rfl, rfl, rfl⟩

/-- Claim C10: when the Range header parses and its validation yields an empty
list of valid ranges, `handle_file_request` serves the complete file — status
200, Content-Length equal to the file size, full body — rather than 416. -/
theorem claim_C10_empty_valid_ranges_serves_full (ranges : RangeEval)
    (file : FileData) (s : String)
    (h : ranges s file.size = RangeOutcome.valid []) :
    handleFileRequest ranges file (some s) = serveFullFile file ∧
    (handleFileRequest ranges file (some s)).status = 200 ∧
    (handleFileRequest ranges file (some s)).contentLength = some file.size ∧
    (handleFileRequest ranges file (some s)).body = BodySpec.fullFile := by
  have hh : handleFileRequest ranges file (some s) = serveFullFile file := by
    simp only [handleFileRequest, h]
  rw [hh]
  exact ⟨rfl, rfl, rfl, rfl⟩

/-- A range evaluation that always validates to an empty list of ranges. -/
def emptyRangeEval : RangeEval := fun _ _ => RangeOutcome.valid []

/-- Witness for C10 at a concrete file and header. -/
theorem claim_C10_witness :
    emptyRangeEval "bytes=10-20" 6 = RangeOutcome.valid [] ∧
    handleFileRequest emptyRangeEval { size := 6, mime := "text/plain" }
        (some "bytes=10-20") =
      serveFullFile { size := 6, mime := "text/plain" } :=
  ⟨rfl, (claim_C10_empty_valid_ranges_serves_full emptyRangeEval
    { size := 6, mime := "text/plain" } "bytes=10-20" rfl).1⟩

/-! ## Upload pipeline (src/server/handlers/upload.rs, wired in src/server/app.rs) -/

/-- Upload-relevant configuration fields (src/config/types.rs). -/
structure UploadConfig where
  prependTimestamp : Bool
  preventOverwrite : Bool
  createDirectories : Bool
  maxRequestSize : Nat
deriving DecidableEq, Repr

/-- The uploaded file extracted from the multipart stream by
`extract_upload_file` (src/server/handlers/upload.rs:66-100): the
multipart-supplied filename and the fully buffered data bytes. -/
structure UploadedFile where
  filename : List Nat
  data : List Nat
deriving DecidableEq, Repr

/-- A concrete finite filesystem threaded through the upload pipeline: a set
of directories and a map from file paths to contents.  The model contains no
symlinks, so canonicalization is the identity. -/
structure FsModel where
  dirs : List AbsPath
  files : List (AbsPath × List Nat)
deriving DecidableEq, Repr

/-- Content of the file at `p`, if one exists. -/
def FsModel.fileAt (m : FsModel) (p : AbsPath) : Option (List Nat) :=
  (m.files.find? (fun f => f.1 == p)).map Prod.snd

/-- `Path::exists` over the model. -/
def FsModel.pathExists (m : FsModel) (p : AbsPath) : Bool :=
  m.dirs.contains p || (m.fileAt p).isSome

/-- The resolver oracles induced by the model: existence is membership and,
the model being symlink-free, canonicalization is the identity. -/
def FsModel.toFilesystem (m : FsModel) : Filesystem where
  present := fun p => m.pathExists p
  canon := fun p => some p

/-- Create or overwrite the file at `p`. -/
def FsModel.setFile (m : FsModel) (p : AbsPath) (data : List Nat) : FsModel :=
  { m with files := (p, data) :: m.files.filter (fun f => !(f.1 == p)) }

/-- Remove the file at `p` if present. -/
def FsModel.removeFile (m : FsModel) (p : AbsPath) : FsModel :=
  { m with files := m.files.filter (fun f => !(f.1 == p)) }

/-- A path together with all its ancestors (for `create_dir_all`): every
leading piece of the component list. -/
def withAncestors (p : AbsPath) : List AbsPath :=
  (List.range (p.length + 1)).map (fun k => p.take k)

/-- `fs::create_dir_all`: create the directory and every missing ancestor. -/
def FsModel.createDirAll (m : FsModel) (p : AbsPath) : FsModel :=
  { m with dirs := withAncestors p ++ m.dirs }

/-- `str::trim_end_matches('/')` on bytes. -/
def trimTrailingSlashes (l : List Nat) : List Nat :=
  (l.reverse.dropWhile (fun b => b == 47)).reverse

/-- The filename composition of `process_upload`
(src/server/handlers/upload.rs:108-119): the upload path (trailing slashes
trimmed) joined with the multipart filename by a `/`, or the filename alone
when the path is empty.  No sanitization of the multipart filename occurs. -/
def composeBaseFilename (uploadPath filename : List Nat) : List Nat :=
  if uploadPath = [] then filename
  else
    let normalizedPath := trimTrailingSlashes uploadPath
    if normalizedPath = [] then filename
    else normalizedPath ++ 47 :: filename

/-- The final relative filename of `process_upload`
(src/server/handlers/upload.rs:121-126): optional `YYYYMMDD_HHMMSS_` UTC
timestamp followed by the composed base name; `nowTs` is the formatted clock
value. -/
def uploadTargetName (cfg : UploadConfig) (nowTs uploadPath filename : List Nat) :
    List Nat :=
  let base := composeBaseFilename uploadPath filename
  if cfg.prependTimestamp then nowTs ++ 95 :: base else base

/-- The sibling temporary used by `write_upload_file`
(src/server/handlers/upload.rs:187): the target path with `.tmp` appended to
its final component. -/
def tmpSibling (target : AbsPath) : AbsPath :=
  match target.getLast? with
  | none => [[46, 116, 109, 112]]
  | some last => target.dropLast ++ [last ++ [46, 116, 109, 112]]

/-- `write_upload_file` (src/server/handlers/upload.rs:185-209) on the model,
with the two writes succeeding: write the data to the `.tmp` sibling, then
atomically rename it over the target. -/
def writeUploadFile (m : FsModel) (target : AbsPath) (data : List Nat) : FsModel :=
  let tmp := tmpSibling target
  let afterWrite := m.setFile tmp data
  (afterWrite.removeFile tmp).setFile target data

/-- `process_upload` (src/server/handlers/upload.rs:103-182) with the
filesystem threaded explicitly: compose the target filename (no
sanitization), resolve it through the path jail (400 on any resolver error),
ensure the parent directory (404 when missing and `create_directories` is
off), reject an existing target under `prevent_overwrite` (409), reject data
larger than `max_request_size` (413), then write via the temporary sibling.
Returns the outcome (error status, or the target path for the 204 response)
and the filesystem after the call. -/
def processUpload (cfg : UploadConfig) (uploadRoot : AbsPath) (m : FsModel)
    (nowTs uploadPath : List Nat) (fileData : UploadedFile) :
    Except Nat AbsPath × FsModel :=
  let filename := uploadTargetName cfg nowTs uploadPath fileData.filename
  match joinPathJailed m.toFilesystem uploadRoot filename with
  | Except.error _ => (Except.error 400, m)
  | Except.ok target =>
      let parentStep : Except Nat FsModel :=
        match target.getLast? with
        | none => Except.ok m
        | some _ =>
            let parent := target.dropLast
            if m.pathExists parent then Except.ok m
            else if cfg.createDirectories then Except.ok (m.createDirAll parent)
            else Except.error 404
      match parentStep with
      | Except.error st => (Except.error st, m)
      | Except.ok m1 =>
          if m1.pathExists target && cfg.preventOverwrite then (Except.error 409, m1)
          else if fileData.data.length > cfg.maxRequestSize then (Except.error 413, m1)
          else (Except.ok target, writeUploadFile m1 target fileData.data)

/-- `sanitize_filename` (src/server/uploads.rs:151-165), with the HTTP status
of `UploadError::InvalidFilename` substituted for the error: reject an empty
filename, one longer than 255 bytes, or one containing `/` or `\`.  This
function lives in the repository, but `server/uploads.rs` is not declared in
any module (src/server/mod.rs declares only `app`, `handlers`, `middleware`),
so the routed upload pipeline never calls it. -/
def sanitizeFilename (filename : List Nat) : Except Nat (List Nat) :=
  if filename = [] then Except.error 400
  else if filename.length > 255 then Except.error 400
  else if filename.contains 47 || filename.contains 92 then Except.error 400
  else Except.ok filename

/-- The unwired `sanitize_filename` does implement the claimed filter: it
passes a filename through unchanged exactly when the name is non-empty, at
most 255 bytes, and free of `/` and `\`. -/
theorem sanitizeFilename_ok_iff (filename : List Nat) :
    sanitizeFilename filename = Except.ok filename ↔
      (filename ≠ [] ∧ filename.length ≤ 255 ∧
        filename.contains 47 = false ∧ filename.contains 92 = false) := by
  unfold sanitizeFilename
  by_cases h1 : filename = []
  · rw [if_pos h1]
    constructor
    · intro h; exact Except.noConfusion h
    · intro hr; exact absurd h1 hr.1
  · rw [if_neg h1]
    by_cases h2 : filename.length > 255
    · rw [if_pos h2]
      constructor
      · intro h; exact Except.noConfusion h
      · intro hr; exact absurd hr.2.1 (by omega)
    · rw [if_neg h2]
      by_cases h3 : (filename.contains 47 || filename.contains 92) = true
      · rw [if_pos h3]
        constructor
        · intro h; exact Except.noConfusion h
        · intro hr
          rw [hr.2.2.1, hr.2.2.2] at h3
          exact Bool.noConfusion h3
      · rw [if_neg h3]
        simp only [Bool.or_eq_true, not_or, Bool.not_eq_true] at h3
        constructor
        · intro _
          exact ⟨h1, by omega, h3.1, h3.2⟩
        · intro _
          rfl

/-- An upload filesystem with just the root and the upload root `u`. -/
def uRootFs : FsModel := { dirs := [[], [[117]]], files := [] }

/-- `handle_upload_impl` (src/server/handlers/upload.rs:37-63) composed with
the layers that precede `process_upload` in the wired app: uploads disabled
maps to 403, and the multipart extraction runs under
`DefaultBodyLimit::max(max_request_size)` (src/server/app.rs:56-57,79), so a
request body larger than `max_request_size` makes the in-handler multipart
read fail, and `extract_upload_file` maps EVERY multipart read error to 400
(src/server/handlers/upload.rs:69-72,83-86).  `bodyLen` is the length of the
raw multipart request body; since the body physically contains the file
part's bytes (plus boundaries and part headers), a file part exceeding the
limit forces `bodyLen` over the limit too, so such an upload dies in this 400
branch and the 413 size check inside `process_upload` is never reached. -/
def handleUploadImpl (enableUpload : Bool) (cfg : UploadConfig) (uploadRoot : AbsPath)
    (m : FsModel) (nowTs uploadPath : List Nat) (bodyLen : Nat)
    (file : UploadedFile) : Nat × FsModel :=
  if ¬ enableUpload then (403, m)
  else if bodyLen > cfg.maxRequestSize then (400, m)
  else
    match processUpload cfg uploadRoot m nowTs uploadPath file with
    | (Except.error st, mOut) => (st, mOut)
    | (Except.ok _, mOut) => (204, mOut)

/-- The spec's scenario-6 configuration: `max_request_bytes = 1024`. -/
def limit1024Cfg : UploadConfig :=
  { prependTimestamp := false, preventOverwrite := true,
    createDirectories := false, maxRequestSize := 1024 }

/-- Claim C4 (code divergence): a multipart upload whose single file part is
2000 bytes against a 1024-byte limit (a 2129-byte raw body) is answered 400 —
the body limit truncates the stream and `extract_upload_file` maps the
multipart failure to 400 — never the claimed 413; the filesystem is untouched,
so the claim's no-file/no-`.tmp` part does hold. -/
theorem claim_C4_oversize_part_rejected_400_not_413 :
    handleUploadImpl true limit1024Cfg [[117]] uRootFs [] [] 2129
        { filename := [102], data := List.replicate 2000 97 } = (400, uRootFs) ∧
    uRootFs.fileAt [[117], [102]] = none ∧
    uRootFs.fileAt (tmpSibling [[117], [102]]) = none ∧
    (400 : Nat) ≠ 413 :=
  ⟨rfl, rfl, rfl, by decide⟩

/-- The formatted UTC timestamp `20250101_120000` as bytes. -/
def tsBytes : List Nat := [50, 48, 50, 53, 48, 49, 48, 49, 95, 49, 50, 48, 48, 48, 48]

/-- Configuration used in the C3 divergence: timestamps prepended, overwrite
prevented, generous size limit. -/
def timestampCfg : UploadConfig :=
  { prependTimestamp := true, preventOverwrite := true,
    createDirectories := false, maxRequestSize := 100 }

/-- Claim C3 (code divergence): the wired upload pipeline applies no filename
sanitization — an upload whose multipart filename is EMPTY is accepted,
creating the file `<timestamp>_` under the upload root, instead of failing
400 `InvalidFilename` as the claim requires. -/
theorem claim_C3_empty_filename_accepted :
    (processUpload timestampCfg [[117]] uRootFs tsBytes []
        { filename := [], data := [104, 105] }).1 =
      Except.ok [[117], tsBytes ++ [95]] ∧
    (processUpload timestampCfg [[117]] uRootFs tsBytes []
        { filename := [], data := [104, 105] }).2.fileAt
        [[117], tsBytes ++ [95]] = some [104, 105] ∧
    (processUpload timestampCfg [[117]] uRootFs tsBytes []
        { filename := [], data := [104, 105] }).1 ≠ Except.error 400 := by
  have h1 : (processUpload timestampCfg [[117]] uRootFs tsBytes []
      { filename := [], data := [104, 105] }).1 =
      Except.ok [[117], tsBytes ++ [95]] := rfl
  refine ⟨h1, rfl, ?_⟩
  intro hcontra
  rw [h1] at hcontra
  exact Except.noConfusion hcontra
